import Mathlib

/-!
Verification of the `strapi-plugin-io` server core: a shallow embedding of
`src/server/src/services/sanitize.js` and `src/server/src/bootstrap/lifecycle.js`
into Lean 4, together with theorems settling the specification's claims.

JavaScript values are modelled by the inductive type `JValue`; JS truthiness,
property access (plain and optional-chained), property assignment and the
`JSON.parse(JSON.stringify(..))` deep clone are modelled by explicit total
functions.  Fallible JS code (property access on `null`/`undefined` throws a
`TypeError`) is modelled with `Except String`.
-/

/-- A JavaScript value, as produced and consumed by the plugin code.
Numbers are modelled as integers (no floating point arithmetic occurs in the
embedded code); objects are ordered association lists, as JS objects preserve
insertion order. -/
inductive JValue where
  | null : JValue
  | undefined : JValue
  | bool (b : Bool) : JValue
  | num (n : Int) : JValue
  | str (s : String) : JValue
  | arr (items : List JValue) : JValue
  | obj (entries : List (String × JValue)) : JValue

/-- JS truthiness: `null`, `undefined`, `false`, `0` and `""` are falsy;
all other values (including every object and array) are truthy. -/
def truthy : JValue → Bool
  | .null => false
  | .undefined => false
  | .bool b => b
  | .num n => n != 0
  | .str s => s != ""
  | .arr _ => true
  | .obj _ => true

/-- `v == null || v == undefined` (the values on which member access throws). -/
def isNullish : JValue → Bool
  | .null => true
  | .undefined => true
  | _ => false

/-- `typeof v === "object"` in JS (true for objects, arrays and `null`). -/
def typeofIsObject : JValue → Bool
  | .obj _ => true
  | .arr _ => true
  | .null => true
  | _ => false

/-- A non-container value (not an object, not an array). -/
def isLeafValue : JValue → Bool
  | .arr _ => false
  | .obj _ => false
  | _ => true

/-- Reading own property `key` of a JS object (first binding wins; the embedded
code never builds duplicate keys).  Missing keys read as `undefined`. -/
def objLookup (entries : List (String × JValue)) (key : String) : JValue :=
  match entries.find? (fun kv => kv.1 == key) with
  | some kv => kv.2
  | none => .undefined

/-- Optional-chained member access `v?.key`: `undefined` on a nullish base,
property lookup on objects, `undefined` on other primitives. -/
def jsOptMember (v : JValue) (key : String) : JValue :=
  match v with
  | .obj entries => objLookup entries key
  | _ => .undefined

/-- Plain member access `v.key`: throws a `TypeError` on a nullish base. -/
def jsMember (v : JValue) (key : String) : Except String JValue :=
  match v with
  | .null => .error ("TypeError: Cannot read properties of null (reading " ++ key ++ ")")
  | .undefined => .error ("TypeError: Cannot read properties of undefined (reading " ++ key ++ ")")
  | .obj entries => .ok (objLookup entries key)
  | _ => .ok .undefined

/-- JS `a || b` (value-returning disjunction): `a` when truthy, else `b`. -/
def jsOr (a b : JValue) : JValue :=
  if truthy a then a else b

/-- Property assignment `entries[key] = v`: overwrite in place or append. -/
def jsObjectSet (entries : List (String × JValue)) (key : String) (v : JValue) :
    List (String × JValue) :=
  match entries with
  | [] => [(key, v)]
  | (k, w) :: tl => if k == key then (k, v) :: tl else (k, w) :: jsObjectSet tl key v

/-- Property assignment `o.key = v`.  The embedded files run in strict mode, so
assignment on a primitive or nullish base throws.  (Assignment on an array base
never occurs in the embedded code and is modelled as a throw as well.) -/
def jsSetMember (o : JValue) (key : String) (v : JValue) : Except String JValue :=
  match o with
  | .obj entries => .ok (.obj (jsObjectSet entries key v))
  | _ => .error ("TypeError: Cannot set property " ++ key)

/-- Does the character list `needle` occur at the start of `hay`? -/
def startsWithChars : List Char → List Char → Bool
  | _, [] => true
  | [], _ :: _ => false
  | h :: hs, n :: ns => (h == n) && startsWithChars hs ns

/-- Does the character list `needle` occur anywhere inside `hay`? -/
def containsChars (hay needle : List Char) : Bool :=
  startsWithChars hay needle ||
    match hay with
    | [] => false
    | _ :: tl => containsChars tl needle

/-- JS `hay.includes(needle)` on strings (substring containment; the empty
needle is contained in every string). -/
def strIncludes (hay needle : String) : Bool :=
  containsChars hay.toList needle.toList

/-- ASCII lowercase of a character (the field-name fragments and keys the
plugin compares are ASCII identifiers, so this models `toLowerCase`). -/
def lowerChar (c : Char) : Char :=
  if 'A' ≤ c ∧ c ≤ 'Z' then Char.ofNat (c.toNat + 32) else c

/-- `s.toLowerCase()` restricted to ASCII. -/
def strToLower (s : String) : String :=
  ⟨s.data.map lowerChar⟩

mutual

/-- `JSON.parse(JSON.stringify(v))`: keys whose value is `undefined` are
dropped from objects, `undefined` array elements become `null`, everything
else is copied structurally. -/
def jsonClone : JValue → JValue
  | .arr items => .arr (jsonCloneArr items)
  | .obj entries => .obj (jsonCloneObj entries)
  | v => v

def jsonCloneArr : List JValue → List JValue
  | [] => []
  | .undefined :: tl => .null :: jsonCloneArr tl
  | x :: tl => jsonClone x :: jsonCloneArr tl

def jsonCloneObj : List (String × JValue) → List (String × JValue)
  | [] => []
  | (_, .undefined) :: tl => jsonCloneObj tl
  | (k, v) :: tl => (k, jsonClone v) :: jsonCloneObj tl

end

/-! ## Sanitizer (`src/server/src/services/sanitize.js`) -/

/-- The built-in sensitive field-name fragments (`DEFAULT_SENSITIVE_FIELDS`). -/
def DEFAULT_SENSITIVE_FIELDS : List String :=
  ["password", "resetPasswordToken", "confirmationToken", "refreshToken",
   "accessToken", "secret", "apiKey", "api_key", "privateKey", "private_key",
   "token", "salt", "hash"]

/-- `getSensitiveFields`: the default fragments unioned with the per-deployment
configured extras (`plugin.io.sensitiveFields`). -/
def getSensitiveFields (customFields : List String) : List String :=
  DEFAULT_SENSITIVE_FIELDS ++ customFields

/-- The per-key test inside `removeSensitiveFields`: the lowercased key equals,
or contains as a substring, the lowercased fragment, for some fragment. -/
def isSensitiveField (sensitiveFields : List String) (key : String) : Bool :=
  let lowerKey := strToLower key
  sensitiveFields.any fun sf =>
    lowerKey == strToLower sf || strIncludes lowerKey (strToLower sf)

mutual

/-- `removeSensitiveFields(data, sensitiveFields)`: non-container values pass
through; arrays map recursively; objects drop every key matching
`isSensitiveField` and recurse into truthy object-typed values. -/
def removeSensitiveFields (data : JValue) (sensitiveFields : List String) : JValue :=
  match data with
  | .arr items => .arr (removeSensitiveFieldsArr items sensitiveFields)
  | .obj entries => .obj (removeSensitiveFieldsObj entries sensitiveFields)
  | v => v

def removeSensitiveFieldsArr (items : List JValue) (sensitiveFields : List String) :
    List JValue :=
  match items with
  | [] => []
  | x :: tl => removeSensitiveFields x sensitiveFields :: removeSensitiveFieldsArr tl sensitiveFields

def removeSensitiveFieldsObj (entries : List (String × JValue)) (sensitiveFields : List String) :
    List (String × JValue) :=
  match entries with
  | [] => []
  | (k, v) :: tl =>
    if isSensitiveField sensitiveFields k then
      removeSensitiveFieldsObj tl sensitiveFields
    else
      (k, if truthy v && typeofIsObject v then removeSensitiveFields v sensitiveFields else v)
        :: removeSensitiveFieldsObj tl sensitiveFields

end

mutual

/-- Does key `key` occur as an object key anywhere inside `v` (at any depth,
including inside array elements)? -/
def containsKeyDeep (key : String) : JValue → Bool
  | .arr items => containsKeyDeepArr key items
  | .obj entries => containsKeyDeepObj key entries
  | _ => false

def containsKeyDeepArr (key : String) : List JValue → Bool
  | [] => false
  | x :: tl => containsKeyDeep key x || containsKeyDeepArr key tl

def containsKeyDeepObj (key : String) : List (String × JValue) → Bool
  | [] => false
  | (k, v) :: tl => k == key || containsKeyDeep key v || containsKeyDeepObj key tl

end

mutual

/-- Does `v` contain, at any depth, an object key matching `isSensitiveField`? -/
def hasSensitiveKeyDeep (sensitiveFields : List String) : JValue → Bool
  | .arr items => hasSensitiveKeyDeepArr sensitiveFields items
  | .obj entries => hasSensitiveKeyDeepObj sensitiveFields entries
  | _ => false

def hasSensitiveKeyDeepArr (sensitiveFields : List String) : List JValue → Bool
  | [] => false
  | x :: tl => hasSensitiveKeyDeep sensitiveFields x || hasSensitiveKeyDeepArr sensitiveFields tl

def hasSensitiveKeyDeepObj (sensitiveFields : List String) : List (String × JValue) → Bool
  | [] => false
  | (k, v) :: tl =>
    isSensitiveField sensitiveFields k || hasSensitiveKeyDeep sensitiveFields v
      || hasSensitiveKeyDeepObj sensitiveFields tl

end

/-- A value that is not a truthy object/array contains no keys at all. -/
theorem containsKeyDeep_non_container (key : String) (v : JValue)
    (h : (truthy v && typeofIsObject v) = false) : containsKeyDeep key v = false := by
  cases v <;> simp_all [truthy, typeofIsObject, containsKeyDeep]

mutual

theorem removeSensitiveFields_excludes (fields : List String) (key : String)
    (hs : isSensitiveField fields key = true) :
    (v : JValue) → containsKeyDeep key (removeSensitiveFields v fields) = false
  | .null => rfl
  | .undefined => rfl
  | .bool _ => rfl
  | .num _ => rfl
  | .str _ => rfl
  | .arr items => removeSensitiveFieldsArr_excludes fields key hs items
  | .obj entries => removeSensitiveFieldsObj_excludes fields key hs entries

theorem removeSensitiveFieldsArr_excludes (fields : List String) (key : String)
    (hs : isSensitiveField fields key = true) :
    (items : List JValue) →
      containsKeyDeepArr key (removeSensitiveFieldsArr items fields) = false
  | [] => rfl
  | x :: tl => by
    have h1 := removeSensitiveFields_excludes fields key hs x
    have h2 := removeSensitiveFieldsArr_excludes fields key hs tl
    simp [removeSensitiveFieldsArr, containsKeyDeepArr, h1, h2]

theorem removeSensitiveFieldsObj_excludes (fields : List String) (key : String)
    (hs : isSensitiveField fields key = true) :
    (entries : List (String × JValue)) →
      containsKeyDeepObj key (removeSensitiveFieldsObj entries fields) = false
  | [] => rfl
  | (k, v) :: tl => by
    have htl := removeSensitiveFieldsObj_excludes fields key hs tl
    by_cases hk : isSensitiveField fields k = true
    · simp [removeSensitiveFieldsObj, hk, htl]
    · have hkk : (k == key) = false :=
        beq_eq_false_iff_ne.mpr (fun hEq => hk (by rw [hEq]; exact hs))
      by_cases hv : (truthy v && typeofIsObject v) = true
      · have hrec := removeSensitiveFields_excludes fields key hs v
        simp [removeSensitiveFieldsObj, hk, hv, containsKeyDeepObj, hkk, hrec, htl]
      · have hleaf := containsKeyDeep_non_container key v (by simpa using hv)
        simp [removeSensitiveFieldsObj, hk, hv, containsKeyDeepObj, hkk, hleaf, htl]

end

mutual

theorem removeSensitiveFields_clean_id (fields : List String) :
    (v : JValue) → hasSensitiveKeyDeep fields v = false →
      removeSensitiveFields v fields = v
  | .null, _ => rfl
  | .undefined, _ => rfl
  | .bool _, _ => rfl
  | .num _, _ => rfl
  | .str _, _ => rfl
  | .arr items, h => by
    have := removeSensitiveFieldsArr_clean_id fields items (by simpa [hasSensitiveKeyDeep] using h)
    simp [removeSensitiveFields, this]
  | .obj entries, h => by
    have := removeSensitiveFieldsObj_clean_id fields entries (by simpa [hasSensitiveKeyDeep] using h)
    simp [removeSensitiveFields, this]

theorem removeSensitiveFieldsArr_clean_id (fields : List String) :
    (items : List JValue) → hasSensitiveKeyDeepArr fields items = false →
      removeSensitiveFieldsArr items fields = items
  | [], _ => rfl
  | x :: tl, h => by
    rw [hasSensitiveKeyDeepArr] at h
    simp only [Bool.or_eq_false_iff] at h
    obtain ⟨hx, htl⟩ := h
    have h1 := removeSensitiveFields_clean_id fields x hx
    have h2 := removeSensitiveFieldsArr_clean_id fields tl htl
    simp [removeSensitiveFieldsArr, h1, h2]

theorem removeSensitiveFieldsObj_clean_id (fields : List String) :
    (entries : List (String × JValue)) → hasSensitiveKeyDeepObj fields entries = false →
      removeSensitiveFieldsObj entries fields = entries
  | [], _ => rfl
  | (k, v) :: tl, h => by
    rw [hasSensitiveKeyDeepObj] at h
    simp only [Bool.or_eq_false_iff] at h
    obtain ⟨⟨hk, hv⟩, htl⟩ := h
    have h2 := removeSensitiveFieldsObj_clean_id fields tl htl
    by_cases hcond : (truthy v && typeofIsObject v) = true
    · have h1 := removeSensitiveFields_clean_id fields v hv
      simp [removeSensitiveFieldsObj, hk, hcond, h1, h2]
    · simp [removeSensitiveFieldsObj, hk, hcond, h2]

end

/-- C1: for every fragment `F` of the effective sensitive-field set and every
key `K` whose lowercase form equals or contains lowercase `F`, the sanitized
output contains `K` at no nesting depth; non-container values (including
`null`/`undefined`) pass through unchanged; and a payload containing no
sensitive key anywhere is returned entirely untransformed. -/
theorem removeSensitiveFields_removes_matching_keys
    (customFields : List String) (F K : String)
    (hF : F ∈ getSensitiveFields customFields)
    (hK : (strToLower K == strToLower F || strIncludes (strToLower K) (strToLower F)) = true)
    (P : JValue) :
    containsKeyDeep K (removeSensitiveFields P (getSensitiveFields customFields)) = false
    ∧ (∀ v : JValue, isLeafValue v = true →
        removeSensitiveFields v (getSensitiveFields customFields) = v)
    ∧ (∀ Q : JValue, hasSensitiveKeyDeep (getSensitiveFields customFields) Q = false →
        removeSensitiveFields Q (getSensitiveFields customFields) = Q) := by
  have hs : isSensitiveField (getSensitiveFields customFields) K = true := by
    simp only [isSensitiveField, List.any_eq_true]
    exact ⟨F, hF, hK⟩
  refine ⟨removeSensitiveFields_excludes _ K hs P, ?_, ?_⟩
  · intro v hv
    cases v <;> simp_all [isLeafValue, removeSensitiveFields]
  · intro Q hQ
    exact removeSensitiveFields_clean_id _ Q hQ

/-- C1 witness: with no custom fragments, the fragment `password` and the key
`passwordHash`, a concrete nested payload loses the key everywhere. -/
theorem removeSensitiveFields_removes_matching_keys_witness :
    containsKeyDeep "passwordHash"
      (removeSensitiveFields
        (.obj [("passwordHash", .str "x"),
               ("profile", .obj [("passwordHash", .str "y"), ("name", .str "bob")]),
               ("items", .arr [.obj [("passwordHash", .null)]])])
        (getSensitiveFields [])) = false
    ∧ removeSensitiveFields (.num 7) (getSensitiveFields []) = .num 7 := by
  have h := removeSensitiveFields_removes_matching_keys [] "password" "passwordHash"
    (by decide) (by decide)
    (.obj [("passwordHash", .str "x"),
           ("profile", .obj [("passwordHash", .str "y"), ("name", .str "bob")]),
           ("items", .arr [.obj [("passwordHash", .null)]])])
  exact ⟨h.1, h.2.1 (.num 7) (by decide)⟩

/-! ## Populate normalizer (`normalizePopulate`, `src/server/src/bootstrap/lifecycle.js`) -/

mutual

/-- Coercion of a JS value to a property key string (`acc[field] = true`
coerces `field` with `ToString`).  Array elements that are `null`/`undefined`
stringify to the empty string inside a join, per `Array.prototype.toString`. -/
def jsPropertyKey : JValue → String
  | .str s => s
  | .num n => toString n
  | .bool b => if b then "true" else "false"
  | .null => "null"
  | .undefined => "undefined"
  | .arr items => String.intercalate "," (jsPropertyKeyList items)
  | .obj _ => "[object Object]"

def jsPropertyKeyList : List JValue → List String
  | [] => []
  | .null :: tl => "" :: jsPropertyKeyList tl
  | .undefined :: tl => "" :: jsPropertyKeyList tl
  | x :: tl => jsPropertyKey x :: jsPropertyKeyList tl

end

/-- `normalizePopulate(config)`: `'*'` and `true` map to the wildcard string;
an array folds into an object mapping each (stringified) element to `true`;
any other non-null object is returned unchanged; everything else maps to
`undefined`. -/
def normalizePopulate (config : JValue) : JValue :=
  match config with
  | .str s => if s = "*" then .str "*" else .undefined
  | .bool b => if b then .str "*" else .undefined
  | .arr fields =>
    .obj (fields.foldl (fun acc field => jsObjectSet acc (jsPropertyKey field) (.bool true)) [])
  | .obj entries => .obj entries
  | _ => .undefined

/-! ## Lifecycle events and the query builder -/

/-- A store lifecycle event as received by the subscriber handlers: action
kind, model identity, write parameters, result payload (nullable) and the
mutable per-event state bag. -/
structure LifecycleEvent where
  action : String
  modelSingularName : String
  modelUid : String
  params : JValue
  result : JValue
  state : JValue

/-- The query object produced by `buildEventQuery` (`filters`, `limit`,
`fields`, each optional). -/
structure EventQuery where
  filters : Option JValue := none
  limit : Option JValue := none
  fields : Option JValue := none

/-- `buildEventQuery({ event })`: copy truthy `where` params into `filters`;
prefer a truthy `result.count` over a truthy `params.limit` for `limit`;
override `filters` with `{ id: event.result.ids }` for `afterCreateMany`
(a plain access that throws when `result` is nullish); reduce `fields` to
`['id']` for `beforeUpdate`. -/
def buildEventQuery (event : LifecycleEvent) : Except String EventQuery :=
  match jsMember event.params "where" with
  | .error e => .error e
  | .ok pWhere =>
    let q1 : EventQuery := if truthy pWhere then { filters := some pWhere } else {}
    let rCount := jsOptMember event.result "count"
    let q2res : Except String EventQuery :=
      if truthy rCount then .ok { q1 with limit := some rCount }
      else
        match jsMember event.params "limit" with
        | .error e => .error e
        | .ok pLimit =>
          if truthy pLimit then .ok { q1 with limit := some pLimit } else .ok q1
    match q2res with
    | .error e => .error e
    | .ok q2 =>
      if event.action = "afterCreateMany" then
        match jsMember event.result "ids" with
        | .error e => .error e
        | .ok ids => .ok { q2 with filters := some (.obj [("id", ids)]) }
      else if event.action = "beforeUpdate" then
        .ok { q2 with fields := some (.arr [.str "id"]) }
      else
        .ok q2

/-! ## Emission coordinator (the subscriber handlers) -/

/-- A `findMany` query as issued to the Document Service (the cloned
`buildEventQuery` output, or the bulk-update filter object, plus the
optional `populate` added when configured). -/
structure FindQuery where
  filters : Option JValue := none
  limit : Option JValue := none
  fields : Option JValue := none
  populate : Option JValue := none

/-- An envelope published through the schema-aware channel
(`strapi.$io.emit({ event, schema, data })`). -/
structure Envelope where
  event : String
  schemaSingularName : String
  schemaUid : String
  data : JValue

/-- A payload published through the raw, schema-unaware channel
(`strapi.$io.raw({ event, data })`). -/
structure RawPublication where
  event : String
  data : JValue

/-- What one handler invocation does to the outside world: the `findMany`
queries it runs, the `findOne` calls it makes (documentId and populate
argument), the schema-aware envelopes and the raw payloads it publishes. -/
structure EmissionResult where
  reads : List FindQuery := []
  readOnes : List (JValue × JValue) := []
  envelopes : List Envelope := []
  raws : List RawPublication := []

/-- `fetchWithPopulate(strapi, uid, documentId, populateConfig)`: returns
`null` without calling the store when `documentId` is falsy; otherwise calls
`findOne({ documentId, populate })` with the normalized populate, returning
`null` when the call throws.  The list component records the `findOne` calls
made. -/
def fetchWithPopulate (findOne : JValue → JValue → Except String JValue)
    (documentId : JValue) (populateConfig : JValue) :
    List (JValue × JValue) × JValue :=
  if truthy documentId = false then ([], .null)
  else
    let populate := normalizePopulate populateConfig
    match findOne documentId populate with
    | .ok r => ([(documentId, populate)], r)
    | .error _ => ([(documentId, populate)], .null)

/-- The `afterCreate` handler: skip (with a debug log) when the result is
falsy; with populate configured and a truthy `documentId`, re-fetch and fall
back to a JSON clone of the captured result when the re-fetch yields a falsy
value; otherwise publish a JSON clone of the captured result. -/
def afterCreateHandler (hasPopulate : Bool) (populateConfig : JValue)
    (event : LifecycleEvent) (findOne : JValue → JValue → Except String JValue) :
    EmissionResult :=
  if truthy event.result = false then {}
  else
    let documentId := jsOptMember event.result "documentId"
    let (calls, data) :=
      if hasPopulate && truthy documentId then
        let (cs, fetched) := fetchWithPopulate findOne documentId populateConfig
        (cs, if truthy fetched = false then jsonClone event.result else fetched)
      else ([], jsonClone event.result)
    { readOnes := calls,
      envelopes := [{ event := "create", schemaSingularName := event.modelSingularName,
                      schemaUid := event.modelUid, data := data }] }

/-- The `afterUpdate` handler (same shape as `afterCreate`, event type
`update`). -/
def afterUpdateHandler (hasPopulate : Bool) (populateConfig : JValue)
    (event : LifecycleEvent) (findOne : JValue → JValue → Except String JValue) :
    EmissionResult :=
  if truthy event.result = false then {}
  else
    let documentId := jsOptMember event.result "documentId"
    let (calls, data) :=
      if hasPopulate && truthy documentId then
        let (cs, fetched) := fetchWithPopulate findOne documentId populateConfig
        (cs, if truthy fetched = false then jsonClone event.result else fetched)
      else ([], jsonClone event.result)
    { readOnes := calls,
      envelopes := [{ event := "update", schemaSingularName := event.modelSingularName,
                      schemaUid := event.modelUid, data := data }] }

/-- The `afterCreateMany` handler: derive the query with `buildEventQuery`
(whose `event.result.ids` access throws when the result is nullish), proceed
only when `query.filters` is truthy, JSON-clone the query, add the normalized
populate when configured, run `findMany` after commit and emit one envelope
per returned row; a `findMany` failure is caught and logged. -/
def afterCreateManyHandler (hasPopulate : Bool) (populateConfig : JValue)
    (event : LifecycleEvent) (findMany : FindQuery → Except String (List JValue)) :
    Except String EmissionResult :=
  match buildEventQuery event with
  | .error e => .error e
  | .ok query =>
    match query.filters with
    | some f =>
      if truthy f then
        let clonedQuery : FindQuery :=
          { filters := query.filters.map jsonClone, limit := query.limit.map jsonClone,
            fields := query.fields.map jsonClone }
        let fullQuery :=
          if hasPopulate then
            { clonedQuery with populate := some (normalizePopulate populateConfig) }
          else clonedQuery
        match findMany fullQuery with
        | .ok records =>
          .ok { reads := [fullQuery],
                envelopes := records.map fun r =>
                  { event := "create", schemaSingularName := event.modelSingularName,
                    schemaUid := event.modelUid, data := r } }
        | .error _ => .ok { reads := [fullQuery] }
      else .ok {}
    | none => .ok {}

/-- The `beforeUpdateMany` handler: initialise `event.state.io` to `{}` when
falsy, then store the write params at `event.state.io.params`; returns the
updated state bag. -/
def beforeUpdateManyHandler (event : LifecycleEvent) : Except String JValue :=
  match jsMember event.state "io" with
  | .error e => .error e
  | .ok stateIo =>
    let state1res :=
      if truthy stateIo = false then jsSetMember event.state "io" (.obj [])
      else .ok event.state
    match state1res with
    | .error e => .error e
    | .ok state1 =>
      match jsMember state1 "io" with
      | .error e => .error e
      | .ok io =>
        match jsSetMember io "params" event.params with
        | .error e => .error e
        | .ok ioNew => jsSetMember state1 "io" ioNew

/-- The `afterUpdateMany` handler: read back the params stored by
`beforeUpdateMany` from the state bag, skip unless both the params and their
`where` are truthy, then run `findMany` on a JSON clone of that `where` (plus
the normalized populate when configured) and emit one envelope per returned
row; a `findMany` failure is caught and logged. -/
def afterUpdateManyHandler (hasPopulate : Bool) (populateConfig : JValue)
    (event : LifecycleEvent) (findMany : FindQuery → Except String (List JValue)) :
    Except String EmissionResult :=
  match jsMember event.state "io" with
  | .error e => .error e
  | .ok stateIo =>
    let params := jsOptMember stateIo "params"
    if truthy params = false then .ok {}
    else
      match jsMember params "where" with
      | .error e => .error e
      | .ok pWhere =>
        if truthy pWhere = false then .ok {}
        else
          let clonedWhere := jsonClone pWhere
          let query : FindQuery :=
            { filters := some clonedWhere,
              populate := if hasPopulate then some (normalizePopulate populateConfig) else none }
          match findMany query with
          | .ok records =>
            .ok { reads := [query],
                  envelopes := records.map fun r =>
                    { event := "update", schemaSingularName := event.modelSingularName,
                      schemaUid := event.modelUid, data := r } }
          | .error _ => .ok { reads := [query] }

/-- The `afterDelete` handler: skip (with a debug log) when the result is
falsy; otherwise publish, through the raw path only, a single payload holding
exactly the cross-populated `id` and `documentId`, with no store read. -/
def afterDeleteHandler (event : LifecycleEvent) : EmissionResult :=
  if truthy event.result = false then {}
  else
    let deleteData : JValue :=
      .obj [("id", jsOr (jsOptMember event.result "id") (jsOptMember event.result "documentId")),
            ("documentId",
              jsOr (jsOptMember event.result "documentId") (jsOptMember event.result "id"))]
    { raws := [{ event := event.modelSingularName ++ ":delete", data := deleteData }] }

/-- The object keys of a payload (empty for non-objects). -/
def objKeys : JValue → List String
  | .obj entries => entries.map Prod.fst
  | _ => []

/-! ## Commit scheduler (`getTransactionCtx` / `scheduleAfterTransaction`)

The transaction context itself is an external collaborator
(`@strapi/database`); its contract — `get()` returns the active transaction
or null, `onCommit(cb)` registers a listener that the store runs exactly once
when that transaction commits and never on rollback, and `setTimeout(cb, d)`
at time `t` fires `cb` once after `t`, `d` milliseconds later — is modelled
from the spec below, while the scheduler's own branching is embedded from the
source. -/

/-- The value cached in the module-level `transactionCtx` slot: the real
capability obtained from `require`, or the `{ get: () => null,
onCommit: () => {} }` fallback installed when `require` throws. -/
inductive TxCtxKind where
  | real : TxCtxKind
  | fallbackNoop : TxCtxKind

/-- `getTransactionCtx()` as a transition on the cached slot, parameterised by
whether the `require` succeeds: returns the context, the new cache content,
and whether this call printed the warning. -/
def getTransactionCtx (requireOk : Bool) (cached : Option TxCtxKind) :
    TxCtxKind × Option TxCtxKind × Bool :=
  match cached with
  | some c => (c, some c, false)
  | none =>
    if requireOk then (.real, some .real, false)
    else (.fallbackNoop, some .fallbackNoop, true)

/-- The cache and total warning count after `n` successive
`getTransactionCtx()` calls starting from the empty cache. -/
def getCtxTimes (requireOk : Bool) : Nat → Option TxCtxKind × Nat
  | 0 => (none, 0)
  | n + 1 =>
    let (cache, warns) := getCtxTimes requireOk n
    let (_, cache2, warned) := getTransactionCtx requireOk cache
    (cache2, warns + (if warned then 1 else 0))

/-- `ctx.get()`: the ambient active transaction through the real capability,
always `none` through the noop fallback. -/
def ctxGet (ctx : TxCtxKind) (activeTx : Option Nat) : Option Nat :=
  match ctx with
  | .real => activeTx
  | .fallbackNoop => none

/-- The branch taken by `scheduleAfterTransaction`: register the runner as a
commit listener, or invoke the runner at once. -/
inductive SchedDecision where
  | registeredOnCommit : SchedDecision
  | ranRunner : SchedDecision

/-- `scheduleAfterTransaction(callback, delay)`: `ctx.onCommit(runner)` when
`ctx.get()` is truthy, else `runner()` immediately. -/
def scheduleAfterTransaction (ctx : TxCtxKind) (activeTx : Option Nat) : SchedDecision :=
  match ctxGet ctx activeTx with
  | some _ => .registeredOnCommit
  | none => .ranRunner

/-- How the enclosing transaction ends: a commit signalled at time `tc`, or a
rollback. -/
inductive TxOutcome where
  | commit (tc : Nat) : TxOutcome
  | rollback : TxOutcome

/-- An observable event of one scheduling: the commit signal, or a run of the
scheduled callback, each stamped with its time. -/
inductive TraceEvent where
  | commitSignal (t : Nat) : TraceEvent
  | callbackRun (t : Nat) : TraceEvent

/-- Modelled from the spec: the execution trace of one
`scheduleAfterTransaction(callback, delay)` call made at time `now`.  A runner
registered with `onCommit` is invoked exactly once at the commit signal and
never on rollback; `setTimeout(callback, delay)` invoked at time `t` runs the
callback once, `delay` later, strictly after the invoking step. -/
def schedulerTrace (ctx : TxCtxKind) (activeTx : Option Nat) (delay now : Nat)
    (outcome : TxOutcome) : List TraceEvent :=
  match scheduleAfterTransaction ctx activeTx with
  | .registeredOnCommit =>
    match outcome with
    | .commit tc => [.commitSignal tc, .callbackRun (tc + delay)]
    | .rollback => []
  | .ranRunner => [.callbackRun (now + delay)]

/-- The number of callback runs in a trace. -/
def countCallbackRuns : List TraceEvent → Nat
  | [] => 0
  | .callbackRun _ :: tl => countCallbackRuns tl + 1
  | .commitSignal _ :: tl => countCallbackRuns tl

/-! ## Subscriber registration (`bootstrapLifecycles`) -/

/-- Which handlers `bootstrapLifecycles` places on the subscriber object for
one configured content type (plus the data captured for them). -/
structure Subscriber where
  models : List JValue
  hasPopulate : Bool
  populateConfig : JValue
  hasAfterCreate : Bool
  hasAfterCreateMany : Bool
  hasAfterUpdate : Bool
  hasBeforeUpdateMany : Bool
  hasAfterUpdateMany : Bool
  hasAfterDelete : Bool
  hasBeforeDeleteMany : Bool
  hasAfterDeleteMany : Bool

/-- JS `v.includes(x)`: membership (SameValueZero) on arrays, substring test
on strings (coercing the argument), a `TypeError` on anything else.  Strict
equality on object/array elements is reference equality, which two distinct
literals never satisfy; the embedded configs only test string elements. -/
def jsStrictEq : JValue → JValue → Bool
  | .null, .null => true
  | .undefined, .undefined => true
  | .bool a, .bool b => a == b
  | .num a, .num b => a == b
  | .str a, .str b => a == b
  | _, _ => false

def jsIncludes (v : JValue) (x : JValue) : Except String Bool :=
  match v with
  | .arr items => .ok (items.any fun y => jsStrictEq y x)
  | .str s => .ok (strIncludes s (jsPropertyKey x))
  | _ => .error "TypeError: includes is not a function"

/-- `!ct.actions || ct.actions.includes(action)`. -/
def actionEnabled (ctActions : JValue) (action : String) : Except String Bool :=
  if truthy ctActions = false then pure true
  else jsIncludes ctActions (.str action)

/-- One iteration of `bootstrapLifecycles`: build the subscriber for a
configured content type `ct` (a plain uid string or an object).  The create
block registers `afterCreate` and `afterCreateMany`; the update block
registers `afterUpdate`, `beforeUpdateMany` and `afterUpdateMany`; the delete
block registers `afterDelete` only — bulk delete hooks are intentionally
absent. -/
def buildSubscriber (ct : JValue) : Except String Subscriber :=
  match jsMember ct "uid" with
  | .error e => .error e
  | .ok ctUid =>
    let uid := if truthy ctUid then ctUid else ct
    match jsMember ct "populate" with
    | .error e => .error e
    | .ok populateConfig =>
      let hasPopulate := match populateConfig with | .undefined => false | _ => true
      match jsMember ct "actions" with
      | .error e => .error e
      | .ok ctActions =>
        match actionEnabled ctActions "create", actionEnabled ctActions "update",
              actionEnabled ctActions "delete" with
        | .ok createEnabled, .ok updateEnabled, .ok deleteEnabled =>
          .ok { models := [uid]
                hasPopulate := hasPopulate
                populateConfig := populateConfig
                hasAfterCreate := createEnabled
                hasAfterCreateMany := createEnabled
                hasAfterUpdate := updateEnabled
                hasBeforeUpdateMany := updateEnabled
                hasAfterUpdateMany := updateEnabled
                hasAfterDelete := deleteEnabled
                hasBeforeDeleteMany := false
                hasAfterDeleteMany := false }
        | .error e, _, _ => .error e
        | _, .error e, _ => .error e
        | _, _, .error e => .error e

/-! ## Claim theorems -/

/-- A truthy value is not nullish. -/
theorem truthy_not_nullish (v : JValue) (h : truthy v = true) : isNullish v = false := by
  cases v <;> simp_all [truthy, isNullish]

/-- On a non-nullish base, plain member access succeeds and agrees with
optional-chained access. -/
theorem jsMember_of_not_nullish (v : JValue) (key : String) (h : isNullish v = false) :
    jsMember v key = .ok (jsOptMember v key) := by
  cases v <;> simp_all [isNullish, jsMember, jsOptMember]

/-- C9: `normalizePopulate` is a total function: `'*'` and `true` map to the
wildcard marker, an array of field names maps to the all-`true` mapping, a
native object shape is returned unchanged, and every other input — including
`undefined`, `42` and `''` — maps to `undefined`. -/
theorem normalizePopulate_total_spec :
    normalizePopulate (.str "*") = .str "*"
    ∧ normalizePopulate (.bool true) = .str "*"
    ∧ normalizePopulate (.arr [.str "a", .str "b"])
        = .obj [("a", .bool true), ("b", .bool true)]
    ∧ normalizePopulate (.obj [("a", .obj [("fields", .arr [.str "x"])])])
        = .obj [("a", .obj [("fields", .arr [.str "x"])])]
    ∧ (∀ entries : List (String × JValue), normalizePopulate (.obj entries) = .obj entries)
    ∧ normalizePopulate .undefined = .undefined
    ∧ normalizePopulate (.num 42) = .undefined
    ∧ normalizePopulate (.str "") = .undefined
    ∧ (∀ c : JValue, (∀ items, c ≠ .arr items) → (∀ entries, c ≠ .obj entries) →
        c ≠ .str "*" → c ≠ .bool true → normalizePopulate c = .undefined) := by
  refine ⟨rfl, rfl, rfl, rfl, fun entries => rfl, rfl, rfl, rfl, ?_⟩
  intro c harr hobj hstar htrue
  match c with
  | .null => rfl
  | .undefined => rfl
  | .bool b =>
    cases b
    · rfl
    · exact absurd rfl htrue
  | .num n => rfl
  | .str s =>
    have hs : s ≠ "*" := fun hEq => hstar (by rw [hEq])
    simp [normalizePopulate, hs]
  | .arr items => exact absurd rfl (harr items)
  | .obj entries => exact absurd rfl (hobj entries)

/-- C9 witness: the catch-all branch at the concrete input `null`. -/
theorem normalizePopulate_total_spec_witness :
    normalizePopulate JValue.null = JValue.undefined :=
  normalizePopulate_total_spec.2.2.2.2.2.2.2.2 JValue.null
    (fun _ h => JValue.noConfusion h) (fun _ h => JValue.noConfusion h)
    (fun h => JValue.noConfusion h) (fun h => JValue.noConfusion h)

/-- C7 counterexample: with `result.count = 0` — present, but falsy — and
`params.limit = 5`, `buildEventQuery` takes the caller-supplied limit `5`,
not the present result count `0` the claim requires. -/
theorem buildEventQuery_zero_count_ignored :
    buildEventQuery
      { action := "afterUpdateMany", modelSingularName := "article",
        modelUid := "api::article.article",
        params := .obj [("where", .obj [("a", .num 1)]), ("limit", .num 5)],
        result := .obj [("count", .num 0)], state := .obj [] }
      = .ok { filters := some (.obj [("a", .num 1)]), limit := some (.num 5), fields := none }
    ∧ some (JValue.num 5) ≠ some (JValue.num 0) := by
  refine ⟨rfl, ?_⟩
  simp

/-- C7 (amended): `buildEventQuery` follows the ordered rules with JS
truthiness as the presence test: truthy `where` params are copied to filters;
the limit is the result count when truthy (a present but zero count is
skipped), else the params limit when truthy, else absent; `afterCreateMany`
overrides the filters to the id-membership object (throwing if the result is
nullish, excluded here by hypothesis); `beforeUpdate` reduces fields to
`['id']`; all output fields are optional. -/
theorem buildEventQuery_rules_truthy (event : LifecycleEvent) (pw pl : JValue)
    (hpw : jsMember event.params "where" = .ok pw)
    (hpl : jsMember event.params "limit" = .ok pl)
    (hres : event.action = "afterCreateMany" → isNullish event.result = false) :
    buildEventQuery event = .ok
      { filters :=
          if event.action = "afterCreateMany" then
            some (.obj [("id", jsOptMember event.result "ids")])
          else if truthy pw then some pw else none,
        limit :=
          if truthy (jsOptMember event.result "count") then
            some (jsOptMember event.result "count")
          else if truthy pl then some pl else none,
        fields := if event.action = "beforeUpdate" then some (.arr [.str "id"]) else none } := by
  by_cases hA : event.action = "afterCreateMany"
  · have hids := jsMember_of_not_nullish event.result "ids" (hres hA)
    have hB : ¬ event.action = "beforeUpdate" := by rw [hA]; decide
    by_cases hc : truthy (jsOptMember event.result "count") = true <;>
      by_cases hl : truthy pl = true <;> by_cases hw : truthy pw = true <;>
      simp_all [buildEventQuery, hpw, hpl, hids]
  · by_cases hB : event.action = "beforeUpdate" <;>
      by_cases hc : truthy (jsOptMember event.result "count") = true <;>
      by_cases hl : truthy pl = true <;> by_cases hw : truthy pw = true <;>
      simp_all [buildEventQuery, hpw, hpl]

/-- C7 witness: the amended rules evaluated on a concrete bulk-create event. -/
theorem buildEventQuery_rules_truthy_witness :
    buildEventQuery
      { action := "afterCreateMany", modelSingularName := "article",
        modelUid := "api::article.article",
        params := .obj [("where", .undefined), ("limit", .undefined)],
        result := .obj [("ids", .arr [.num 7]), ("count", .num 1)], state := .obj [] }
      = .ok { filters := some (.obj [("id", .arr [.num 7])]), limit := some (.num 1),
              fields := none } :=
  buildEventQuery_rules_truthy
    { action := "afterCreateMany", modelSingularName := "article",
      modelUid := "api::article.article",
      params := .obj [("where", .undefined), ("limit", .undefined)],
      result := .obj [("ids", .arr [.num 7]), ("count", .num 1)], state := .obj [] }
    .undefined .undefined rfl rfl (fun _ => rfl)

/-- C2: a callback scheduled while `ctx.get()` returns an active transaction
is registered only as a commit listener; on commit it runs exactly once,
strictly after the commit signal, at the commit time plus its configured
delay; on rollback it never runs. -/
theorem scheduleAfterTransaction_commit_gated (ctx : TxCtxKind) (activeTx : Option Nat)
    (tx : Nat) (h : ctxGet ctx activeTx = some tx) (delay now tc : Nat) :
    scheduleAfterTransaction ctx activeTx = .registeredOnCommit
    ∧ schedulerTrace ctx activeTx delay now (.commit tc)
        = [.commitSignal tc, .callbackRun (tc + delay)]
    ∧ countCallbackRuns (schedulerTrace ctx activeTx delay now (.commit tc)) = 1
    ∧ schedulerTrace ctx activeTx delay now .rollback = [] := by
  have hd : scheduleAfterTransaction ctx activeTx = .registeredOnCommit := by
    unfold scheduleAfterTransaction
    rw [h]
  refine ⟨hd, ?_, ?_, ?_⟩ <;> simp [schedulerTrace, hd, countCallbackRuns]

/-- C2 witness: a concrete active transaction, delay 5, commit at time 10. -/
theorem scheduleAfterTransaction_commit_gated_witness :
    scheduleAfterTransaction .real (some 0) = .registeredOnCommit
    ∧ schedulerTrace .real (some 0) 5 2 (.commit 10)
        = [.commitSignal 10, .callbackRun 15]
    ∧ countCallbackRuns (schedulerTrace .real (some 0) 5 2 (.commit 10)) = 1
    ∧ schedulerTrace .real (some 0) 5 2 .rollback = [] :=
  scheduleAfterTransaction_commit_gated .real (some 0) 0 rfl 5 2 10

/-- After `n ≥ 1` calls with the capability unavailable, the fallback is
cached and exactly one warning has been printed. -/
theorem getCtxTimes_require_failed :
    (n : Nat) → 1 ≤ n → getCtxTimes false n = (some .fallbackNoop, 1)
  | 1, _ => rfl
  | n + 2, _ => by
    have ih := getCtxTimes_require_failed (n + 1) (Nat.le_add_left 1 n)
    show getCtxTimes false (n + 2) = (some .fallbackNoop, 1)
    rw [getCtxTimes, ih]
    rfl

/-- C6: with no active transaction the callback runs immediately, once, after
its own delay, whatever the transaction outcome; when the capability cannot
be obtained, any number of accesses produces exactly one warning (on the
first access, the fallback being cached), the fallback context always runs
callbacks immediately, and no callback is ever dropped. -/
theorem scheduler_no_transaction_and_fallback (ctx : TxCtxKind) (activeTx : Option Nat)
    (hget : ctxGet ctx activeTx = none) (delay now : Nat) (outcome : TxOutcome)
    (n : Nat) (hn : 1 ≤ n) :
    schedulerTrace ctx activeTx delay now outcome = [.callbackRun (now + delay)]
    ∧ countCallbackRuns (schedulerTrace ctx activeTx delay now outcome) = 1
    ∧ getCtxTimes false n = (some .fallbackNoop, 1)
    ∧ (getTransactionCtx false none).2.2 = true
    ∧ (∀ atx d t oc, schedulerTrace .fallbackNoop atx d t oc = [.callbackRun (t + d)]) := by
  have hd : scheduleAfterTransaction ctx activeTx = .ranRunner := by
    unfold scheduleAfterTransaction
    rw [hget]
  refine ⟨by simp [schedulerTrace, hd], by simp [schedulerTrace, hd, countCallbackRuns],
          getCtxTimes_require_failed n hn, rfl, ?_⟩
  intro atx d t oc
  simp [schedulerTrace, scheduleAfterTransaction, ctxGet]

/-- C6 witness: no active transaction through the real capability, a rollback
outcome, and three capability accesses with `require` failing. -/
theorem scheduler_no_transaction_and_fallback_witness :
    schedulerTrace .real none 3 4 .rollback = [.callbackRun 7]
    ∧ countCallbackRuns (schedulerTrace .real none 3 4 .rollback) = 1
    ∧ getCtxTimes false 3 = (some .fallbackNoop, 1)
    ∧ (getTransactionCtx false none).2.2 = true
    ∧ (∀ atx d t oc, schedulerTrace .fallbackNoop atx d t oc = [.callbackRun (t + d)]) :=
  scheduler_no_transaction_and_fallback .real none rfl 3 4 .rollback 3 (by decide)

/-- C3 (code evaluated at the failing input): on an `afterCreateMany` event
whose result is missing, the handler does not skip — `buildEventQuery`
dereferences `event.result.ids` and the handler throws the `TypeError` back
out (rejecting the hook into the writer) — unlike the sibling `afterCreate`
handler, which skips the same missing result with no emission. -/
theorem afterCreateMany_rejects_on_missing_result :
    afterCreateManyHandler false .undefined
      { action := "afterCreateMany", modelSingularName := "article",
        modelUid := "api::article.article", params := .obj [],
        result := .undefined, state := .obj [] }
      (fun _ => .ok [])
      = .error "TypeError: Cannot read properties of undefined (reading ids)"
    ∧ afterCreateHandler false .undefined
      { action := "afterCreate", modelSingularName := "article",
        modelUid := "api::article.article", params := .obj [],
        result := .undefined, state := .obj [] }
      (fun _ _ => .ok .null)
      = {} :=
  ⟨rfl, rfl⟩

/-- C4 counterexample: on an `afterUpdateMany` event with a result count of 3,
the issued `findMany` query carries no limit, while `buildEventQuery` derives
`limit = 3` for the same event — the issued query is not the derived query. -/
theorem afterUpdateMany_query_differs_from_buildEventQuery :
    afterUpdateManyHandler false .undefined
      { action := "afterUpdateMany", modelSingularName := "article",
        modelUid := "api::article.article",
        params := .obj [("where", .obj [("a", .num 1)]), ("limit", .undefined)],
        result := .obj [("count", .num 3)],
        state := .obj [("io", .obj [("params", .obj [("where", .obj [("a", .num 1)])])])] }
      (fun _ => .ok [])
      = .ok { reads := [{ filters := some (.obj [("a", .num 1)]) }] }
    ∧ buildEventQuery
      { action := "afterUpdateMany", modelSingularName := "article",
        modelUid := "api::article.article",
        params := .obj [("where", .obj [("a", .num 1)]), ("limit", .undefined)],
        result := .obj [("count", .num 3)],
        state := .obj [("io", .obj [("params", .obj [("where", .obj [("a", .num 1)])])])] }
      = .ok { filters := some (.obj [("a", .num 1)]), limit := some (.num 3), fields := none }
    ∧ ({ filters := some (.obj [("a", .num 1)]) } : FindQuery).limit
        ≠ ({ filters := some (.obj [("a", .num 1)]), limit := some (.num 3),
             fields := none } : EventQuery).limit := by
  refine ⟨rfl, rfl, ?_⟩
  simp

/-- C4 (amended): for `afterCreateMany` the issued `findMany` query is
exactly the JSON-cloned `buildEventQuery` output with the normalized populate
added when configured, and one envelope is emitted per returned row; for
`afterUpdateMany` the issued query carries only the JSON-cloned `where`
captured by `beforeUpdateMany` plus the optional populate — the derived
query's limit is not applied — and again one envelope per returned row. -/
theorem bulk_readback_query_shapes :
    (∀ (hasPop : Bool) (popCfg : JValue) (event : LifecycleEvent)
       (records : List JValue) (q : EventQuery) (f : JValue),
       buildEventQuery event = .ok q → q.filters = some f → truthy f = true →
       afterCreateManyHandler hasPop popCfg event (fun _ => .ok records) = .ok
         { reads := [{ filters := q.filters.map jsonClone, limit := q.limit.map jsonClone,
                       fields := q.fields.map jsonClone,
                       populate := if hasPop then some (normalizePopulate popCfg) else none }],
           envelopes := records.map fun r =>
             { event := "create", schemaSingularName := event.modelSingularName,
               schemaUid := event.modelUid, data := r } })
    ∧ (∀ (hasPop : Bool) (popCfg : JValue) (event : LifecycleEvent)
       (records : List JValue) (stateIo : JValue),
       jsMember event.state "io" = .ok stateIo →
       truthy (jsOptMember stateIo "params") = true →
       truthy (jsOptMember (jsOptMember stateIo "params") "where") = true →
       afterUpdateManyHandler hasPop popCfg event (fun _ => .ok records) = .ok
         { reads := [{ filters :=
                         some (jsonClone (jsOptMember (jsOptMember stateIo "params") "where")),
                       populate := if hasPop then some (normalizePopulate popCfg) else none }],
           envelopes := records.map fun r =>
             { event := "update", schemaSingularName := event.modelSingularName,
               schemaUid := event.modelUid, data := r } }) := by
  constructor
  · intro hasPop popCfg event records q f hq hf ht
    cases hasPop <;> simp [afterCreateManyHandler, hq, hf, ht]
  · intro hasPop popCfg event records stateIo hio hp htw
    have hw := jsMember_of_not_nullish (jsOptMember stateIo "params") "where"
      (truthy_not_nullish _ hp)
    cases hasPop <;> simp [afterUpdateManyHandler, hio, hp, hw, htw]

/-- C4 witness: both bulk paths evaluated on concrete events. -/
theorem bulk_readback_query_shapes_witness :
    afterCreateManyHandler true (.str "*")
      { action := "afterCreateMany", modelSingularName := "a", modelUid := "api::a.a",
        params := .obj [("where", .undefined), ("limit", .undefined)],
        result := .obj [("ids", .arr [.num 1, .num 2]), ("count", .num 2)],
        state := .obj [] }
      (fun _ => .ok [.obj [("x", .num 1)]])
      = .ok { reads := [{ filters := some (.obj [("id", .arr [.num 1, .num 2])]),
                          limit := some (.num 2), fields := none,
                          populate := some (.str "*") }],
              envelopes := [{ event := "create", schemaSingularName := "a",
                              schemaUid := "api::a.a", data := .obj [("x", .num 1)] }] }
    ∧ afterUpdateManyHandler false .undefined
      { action := "afterUpdateMany", modelSingularName := "b", modelUid := "api::b.b",
        params := .obj [], result := .obj [("count", .num 1)],
        state := .obj [("io", .obj [("params", .obj [("where", .obj [("c", .num 3)])])])] }
      (fun _ => .ok [.obj [("y", .num 9)]])
      = .ok { reads := [{ filters := some (.obj [("c", .num 3)]) }],
              envelopes := [{ event := "update", schemaSingularName := "b",
                              schemaUid := "api::b.b", data := .obj [("y", .num 9)] }] } :=
  ⟨bulk_readback_query_shapes.1 true (.str "*")
      { action := "afterCreateMany", modelSingularName := "a", modelUid := "api::a.a",
        params := .obj [("where", .undefined), ("limit", .undefined)],
        result := .obj [("ids", .arr [.num 1, .num 2]), ("count", .num 2)],
        state := .obj [] }
      [.obj [("x", .num 1)]]
      { filters := some (.obj [("id", .arr [.num 1, .num 2])]), limit := some (.num 2),
        fields := none }
      (.obj [("id", .arr [.num 1, .num 2])]) rfl rfl rfl,
   bulk_readback_query_shapes.2 false .undefined
      { action := "afterUpdateMany", modelSingularName := "b", modelUid := "api::b.b",
        params := .obj [], result := .obj [("count", .num 1)],
        state := .obj [("io", .obj [("params", .obj [("where", .obj [("c", .num 3)])])])] }
      [.obj [("y", .num 9)]]
      (.obj [("params", .obj [("where", .obj [("c", .num 3)])])]) rfl rfl rfl⟩

/-- C5: with a truthy delete result, the handler publishes exactly one
payload, through the raw path only (no schema-aware envelope), with subject
`<singular-name>:delete`; the payload holds exactly the keys `id` and
`documentId`, each falling back to the other via JS `||`; and the handler
performs no store read at all. -/
theorem afterDelete_identity_only_payload (event : LifecycleEvent)
    (h : truthy event.result = true) :
    afterDeleteHandler event =
      { raws := [{ event := event.modelSingularName ++ ":delete",
                   data := .obj
                     [("id", jsOr (jsOptMember event.result "id")
                        (jsOptMember event.result "documentId")),
                      ("documentId", jsOr (jsOptMember event.result "documentId")
                        (jsOptMember event.result "id"))] }] }
    ∧ (afterDeleteHandler event).reads = []
    ∧ (afterDeleteHandler event).readOnes = []
    ∧ (afterDeleteHandler event).envelopes = []
    ∧ ∀ p ∈ (afterDeleteHandler event).raws, objKeys p.data = ["id", "documentId"] := by
  have h1 : afterDeleteHandler event =
      { raws := [{ event := event.modelSingularName ++ ":delete",
                   data := .obj
                     [("id", jsOr (jsOptMember event.result "id")
                        (jsOptMember event.result "documentId")),
                      ("documentId", jsOr (jsOptMember event.result "documentId")
                        (jsOptMember event.result "id"))] }] } := by
    simp [afterDeleteHandler, h]
  refine ⟨h1, by rw [h1], by rw [h1], by rw [h1], ?_⟩
  rw [h1]
  intro p hp
  simp only [List.mem_singleton] at hp
  subst hp
  rfl

/-- C5 witness: an entity whose result has only a store id; both payload
fields cross-populate to it. -/
theorem afterDelete_identity_only_payload_witness :
    afterDeleteHandler
      { action := "afterDelete", modelSingularName := "article",
        modelUid := "api::article.article", params := .obj [],
        result := .obj [("id", .num 1), ("name", .str "x"), ("password", .str "s")],
        state := .obj [] }
      = { raws := [{ event := "article:delete",
                     data := .obj [("id", .num 1), ("documentId", .num 1)] }] } :=
  (afterDelete_identity_only_payload
    { action := "afterDelete", modelSingularName := "article",
      modelUid := "api::article.article", params := .obj [],
      result := .obj [("id", .num 1), ("name", .str "x"), ("password", .str "s")],
      state := .obj [] } rfl).1

/-- C8: for `afterUpdate` (and `afterCreate`) with populate configured and a
truthy `documentId`, a re-fetch that throws or that returns a falsy value is
caught — the handler still returns, records the one `findOne` call, and
publishes exactly one envelope carrying the JSON deep clone of the originally
captured result. -/
theorem update_refetch_failure_falls_back (popCfg : JValue)
    (event : LifecycleEvent) (findOne : JValue → JValue → Except String JValue)
    (hres : truthy event.result = true)
    (hdoc : truthy (jsOptMember event.result "documentId") = true)
    (hfail : (∃ e, findOne (jsOptMember event.result "documentId")
                (normalizePopulate popCfg) = .error e)
      ∨ (∃ d, findOne (jsOptMember event.result "documentId")
                (normalizePopulate popCfg) = .ok d ∧ truthy d = false)) :
    afterUpdateHandler true popCfg event findOne =
      { readOnes := [(jsOptMember event.result "documentId", normalizePopulate popCfg)],
        envelopes := [{ event := "update", schemaSingularName := event.modelSingularName,
                        schemaUid := event.modelUid, data := jsonClone event.result }] }
    ∧ afterCreateHandler true popCfg event findOne =
      { readOnes := [(jsOptMember event.result "documentId", normalizePopulate popCfg)],
        envelopes := [{ event := "create", schemaSingularName := event.modelSingularName,
                        schemaUid := event.modelUid, data := jsonClone event.result }] } := by
  have truthyNull : truthy JValue.null = false := rfl
  rcases hfail with ⟨e, he⟩ | ⟨d, hd, hdf⟩
  · constructor <;>
      simp [afterUpdateHandler, afterCreateHandler, fetchWithPopulate, hres, hdoc, he,
        truthyNull]
  · constructor <;>
      simp [afterUpdateHandler, afterCreateHandler, fetchWithPopulate, hres, hdoc, hd, hdf]

/-- C8 witness: a throwing `findOne`; the update envelope carries the clone of
the captured snapshot. -/
theorem update_refetch_failure_falls_back_witness :
    afterUpdateHandler true (.arr [.str "author"])
      { action := "afterUpdate", modelSingularName := "article",
        modelUid := "api::article.article", params := .obj [],
        result := .obj [("documentId", .str "d1"), ("x", .num 5)], state := .obj [] }
      (fun _ _ => .error "boom")
      = { readOnes := [(.str "d1", .obj [("author", .bool true)])],
          envelopes := [{ event := "update", schemaSingularName := "article",
                          schemaUid := "api::article.article",
                          data := .obj [("documentId", .str "d1"), ("x", .num 5)] }] } :=
  (update_refetch_failure_falls_back (.arr [.str "author"])
    { action := "afterUpdate", modelSingularName := "article",
      modelUid := "api::article.article", params := .obj [],
      result := .obj [("documentId", .str "d1"), ("x", .num 5)], state := .obj [] }
    (fun _ _ => .error "boom") rfl rfl (Or.inl ⟨"boom", rfl⟩)).1

/-- C10: whatever the content-type configuration — in particular even when
its actions include `delete` — the subscriber built by `bootstrapLifecycles`
registers no `beforeDeleteMany` and no `afterDeleteMany` handler, so a bulk
delete never produces an emission. -/
theorem no_bulk_delete_handlers (ct : JValue) (s : Subscriber)
    (h : buildSubscriber ct = .ok s) :
    s.hasBeforeDeleteMany = false ∧ s.hasAfterDeleteMany = false := by
  unfold buildSubscriber at h
  repeat' split at h
  all_goals first
    | (simp only [Except.ok.injEq] at h; subst h; exact ⟨rfl, rfl⟩)
    | exact absurd h (by simp)

/-- C10 witness: a content type whose configured actions are exactly
`['delete']` still gets no bulk-delete hooks. -/
theorem no_bulk_delete_handlers_witness :
    buildSubscriber (.obj [("uid", .str "api::article.article"),
                           ("actions", .arr [.str "delete"])])
      = .ok { models := [.str "api::article.article"], hasPopulate := false,
              populateConfig := .undefined, hasAfterCreate := false,
              hasAfterCreateMany := false, hasAfterUpdate := false,
              hasBeforeUpdateMany := false, hasAfterUpdateMany := false,
              hasAfterDelete := true, hasBeforeDeleteMany := false,
              hasAfterDeleteMany := false }
    ∧ Subscriber.hasBeforeDeleteMany
        { models := [.str "api::article.article"], hasPopulate := false,
          populateConfig := .undefined, hasAfterCreate := false,
          hasAfterCreateMany := false, hasAfterUpdate := false,
          hasBeforeUpdateMany := false, hasAfterUpdateMany := false,
          hasAfterDelete := true, hasBeforeDeleteMany := false,
          hasAfterDeleteMany := false } = false
    ∧ Subscriber.hasAfterDeleteMany
        { models := [.str "api::article.article"], hasPopulate := false,
          populateConfig := .undefined, hasAfterCreate := false,
          hasAfterCreateMany := false, hasAfterUpdate := false,
          hasBeforeUpdateMany := false, hasAfterUpdateMany := false,
          hasAfterDelete := true, hasBeforeDeleteMany := false,
          hasAfterDeleteMany := false } = false :=
  ⟨rfl,
   (no_bulk_delete_handlers
     (.obj [("uid", .str "api::article.article"), ("actions", .arr [.str "delete"])])
     { models := [.str "api::article.article"], hasPopulate := false,
       populateConfig := .undefined, hasAfterCreate := false,
       hasAfterCreateMany := false, hasAfterUpdate := false,
       hasBeforeUpdateMany := false, hasAfterUpdateMany := false,
       hasAfterDelete := true, hasBeforeDeleteMany := false,
       hasAfterDeleteMany := false } rfl).1,
   (no_bulk_delete_handlers
     (.obj [("uid", .str "api::article.article"), ("actions", .arr [.str "delete"])])
     { models := [.str "api::article.article"], hasPopulate := false,
       populateConfig := .undefined, hasAfterCreate := false,
       hasAfterCreateMany := false, hasAfterUpdate := false,
       hasBeforeUpdateMany := false, hasAfterUpdateMany := false,
       hasAfterDelete := true, hasBeforeDeleteMany := false,
       hasAfterDeleteMany := false } rfl).2⟩
